import Mathlib

/-!
Verification development for the IPMA weather proxy's caching data-access
layer (`app/cache.py`, `app/ipma_client.py`) and its normalization and
enrichment helpers (`app/main.py`), shallowly embedded in Lean.

Modelling conventions:
- Wall-clock timestamps are `Int` values passed explicitly (the Python code
  calls `time.time()` at each operation).
- Python `dict` stores become functions `String → Option (Int × α)`;
  `None`-returning lookups become `Option`.
- Python `float` values are modelled as `Rat`; `float(x)` conversion is a
  partial function returning `Option Rat` (failure = raised exception).
- HTTP endpoint failures (`HTTPException`) and uncaught exceptions become
  `Except` error outcomes.
-/

namespace IPMAProxy

/-! ## TTL cache (`app/cache.py`, class `TTLCache`) -/

/-- Embedding of `TTLCache`: a TTL in seconds together with the `_store`
dict mapping keys to `(timestamp, value)` tuples. -/
structure TTLCache (α : Type) where
  ttl : Int
  store : String → Option (Int × α)

/-- Method `get` of `TTLCache` (cache.py lines 23-49): returns the stored value for
`key` if present and not expired, evicting a stale entry.  The current
time `now` (Python `time.time()`) is an explicit argument; the result is
the returned value together with the post-call cache state. -/
def TTLCache.get {α : Type} (c : TTLCache α) (now : Int) (key : String) :
    Option α × TTLCache α :=
  match c.store key with
  | none => (none, c)
  | some (ts, value) =>
    if now - ts > c.ttl then
      (none, { c with store := fun k => if k = key then none else c.store k })
    else
      (some value, c)

/-- Method `set` of `TTLCache` (cache.py lines 51-62): insert or replace the value for
`key`, timestamped with the current time `now`. -/
def TTLCache.set {α : Type} (c : TTLCache α) (now : Int) (key : String) (value : α) :
    TTLCache α :=
  { c with store := fun k => if k = key then some (now, value) else c.store k }

/-- Method `clear` of `TTLCache` (cache.py lines 64-70): remove all entries. -/
def TTLCache.clear {α : Type} (c : TTLCache α) : TTLCache α :=
  { c with store := fun _ => none }

/-! ## Locality records and `find_locality` (`app/ipma_client.py`) -/

/-- A locality record as consumed by `find_locality`.  The Python records
are dicts read with `.get` and per-field defaults, so every field used by
the resolution algorithm is optional here.  (`local` is a Lean keyword, so
the field is named `localName`.) -/
structure Locality where
  localName : Option String
  idDistrito : Option Int
  idConcelho : Option Int
  globalIdLocal : Option Int
deriving DecidableEq

/-- Python substring test `pat in s` on lists of characters:
`pat` occurs contiguously in `s`.  `listStartsWith s pat` is
`s.startswith(pat)`. -/
def listStartsWith : List Char → List Char → Bool
  | _, [] => true
  | [], _ :: _ => false
  | a :: as, b :: bs => a == b && listStartsWith as bs

/-- Substring containment on character lists: some suffix of `s` starts
with `pat`. -/
def listContains : List Char → List Char → Bool
  | [], pat => pat.isEmpty
  | s@(_ :: rest), pat => listStartsWith s pat || listContains rest pat

/-- Python `pat in s` for strings. -/
def strContains (s pat : String) : Bool :=
  listContains s.data pat.data

/-- Model of Python's `str.lower()` (ASCII case mapping, which is all the
claims exercise). -/
def pyLower (s : String) : String :=
  ⟨s.data.map Char.toLower⟩

/-- Model of Python's `str.strip()` with no argument: remove leading and
trailing whitespace. -/
def pyStrip (s : String) : String :=
  ⟨((s.data.dropWhile Char.isWhitespace).reverse.dropWhile Char.isWhitespace).reverse⟩

/-- The sort key used at ipma_client.py lines 167 and 173:
`(x.get("idConcelho", 1_000_000), x.get("globalIdLocal", 1_000_000))`. -/
def tieKey (l : Locality) : Int × Int :=
  (l.idConcelho.getD 1000000, l.globalIdLocal.getD 1000000)

/-- Strict lexicographic comparison of sort keys, i.e. Python's `<` on the
2-tuples produced by the sort key. -/
def keyLt (p q : Int × Int) : Bool :=
  decide (p.1 < q.1) || (p.1 == q.1 && decide (p.2 < q.2))

/-- Embedding of `sorted(ls, key=tieKey)[0]` for a possibly-empty list: the first
element of `ls` attaining the minimal `tieKey` (Python's sort is stable,
so index 0 of the sorted list is the earliest minimal element), or `none`
when the list is empty (the code guards `if candidates:` before
subscripting). -/
def selectMin : List Locality → Option Locality
  | [] => none
  | l :: ls =>
    match selectMin ls with
    | none => some l
    | some b => if keyLt (tieKey b) (tieKey l) then some b else some l

/-- Tier-1 predicate (ipma_client.py line 161): the record's `local` field
(defaulted to `""`), lower-cased, equals the normalized query. -/
def exactMatch (norm : String) (l : Locality) : Bool :=
  pyLower (l.localName.getD "") == norm

/-- Tier-2 predicate (ipma_client.py line 169): the normalized query is a
substring of the lower-cased `local` field. -/
def containsMatch (norm : String) (l : Locality) : Bool :=
  strContains (pyLower (l.localName.getD "")) norm

/-- The optional district filter (ipma_client.py lines 162-163, 170-171):
`int(l.get("idDistrito", -1)) == int(district_id)`. -/
def districtOk (district_id : Option Int) (l : Locality) : Bool :=
  match district_id with
  | none => true
  | some x => l.idDistrito.getD (-1) == x

/-- The Tier-1 (exact-match) candidate list after the optional district
filter. -/
def tier1 (locs : List Locality) (locality : String) (district_id : Option Int) :
    List Locality :=
  (locs.filter (exactMatch (pyLower (pyStrip locality)))).filter (districtOk district_id)

/-- The Tier-2 (substring) candidate list after the optional district
filter. -/
def tier2 (locs : List Locality) (locality : String) (district_id : Option Int) :
    List Locality :=
  (locs.filter (containsMatch (pyLower (pyStrip locality)))).filter (districtOk district_id)

/-- Embedding of `IPMAClient.find_locality` (ipma_client.py lines 138-175), with the
locality list (the result of `get_localities()`) passed explicitly.
Exact matches are preferred; on an empty exact-candidate list the
substring tier is tried; both tiers apply the optional district filter and
the `sorted(...)[0]` tie-break; an empty Tier 2 yields `None`. -/
def find_locality (locs : List Locality) (locality : String)
    (district_id : Option Int) : Option Locality :=
  match selectMin (tier1 locs locality district_id) with
  | some r => some r
  | none => selectMin (tier2 locs locality district_id)

/-! ## Weather-type labels and `get_weather_types` (`app/ipma_client.py`) -/

/-- One raw item of the `data` array of `{base}/weather-type-classe.json`.
`idWeatherType` is accessed with `it["idWeatherType"]` (required); the two
descriptions are read with `.get(..., "")`. -/
structure RawWT where
  idWeatherType : Int
  descWeatherTypePT : Option String
  descWeatherTypeEN : Option String
deriving DecidableEq

/-- The `{"pt": ..., "en": ...}` label pair. -/
structure WTLabels where
  pt : String
  en : String
deriving DecidableEq

/-- Python dict insertion on an association list: overwrite in place if the
key exists, else append. -/
def dictInsert (m : List (Int × WTLabels)) (k : Int) (v : WTLabels) :
    List (Int × WTLabels) :=
  if m.any (fun p => p.1 == k) then
    m.map (fun p => if p.1 == k then (k, v) else p)
  else
    m ++ [(k, v)]

/-- Python expression `mapping.get(k)` on the association list. -/
def wtLookup (m : List (Int × WTLabels)) (k : Int) : Option WTLabels :=
  (m.find? (fun p => p.1 == k)).map Prod.snd

/-- One iteration of the mapping-building loop of `get_weather_types`
(ipma_client.py lines 102-106):
`mapping[int(it["idWeatherType"])] = {"pt": ..., "en": ...}`. -/
def wtStep (m : List (Int × WTLabels)) (it : RawWT) : List (Int × WTLabels) :=
  dictInsert m it.idWeatherType
    ⟨it.descWeatherTypePT.getD "", it.descWeatherTypeEN.getD ""⟩

/-- The mapping-building loop of `get_weather_types` (ipma_client.py lines
101-106) over the raw `data` array, starting from the empty dict. -/
def buildWeatherTypes (items : List RawWT) : List (Int × WTLabels) :=
  items.foldl wtStep []

/-- The dynamically-typed value stored in `_weather_types_cache`: either
the raw upstream array or the transformed integer-keyed label map (the
Python cache stores `Any`, so the type keeps both shapes representable). -/
inductive WTVal where
  | raw (items : List RawWT)
  | mapped (m : List (Int × WTLabels))
deriving DecidableEq

/-- Embedding of `IPMAClient.get_weather_types` (ipma_client.py lines 81-108) with the
fetched `data` array passed explicitly (the body of `_get_json` is
network I/O): consult the cache under key `"weather_types"`; on hit return
the cached value; on miss build the label map, cache it, and return it. -/
def get_weather_types (cache : TTLCache WTVal) (now : Int) (fetched : List RawWT) :
    WTVal × TTLCache WTVal :=
  match cache.get now "weather_types" with
  | (some cached, c) => (cached, c)
  | (none, c) =>
    let mapping := WTVal.mapped (buildWeatherTypes fetched)
    (mapping, c.set now "weather_types" mapping)

/-! ## Forecast day records and normalization (`app/main.py`) -/

/-- A scalar JSON value as it appears in a day record's numeric-ish fields
(`tMin`, `tMax`, `precipitaProb`, `latitude`, `longitude`): a number
(modelled as `Rat`), a string, JSON `null`, or some other non-coercible
value. -/
inductive JVal where
  | num (q : Rat)
  | str (s : String)
  | null
  | other
deriving DecidableEq

/-- Splits a character list at the first exponent marker `e`/`E`,
returning the mantissa characters and, when a marker was found, the
characters after it. -/
def splitAtExp : List Char → List Char × Option (List Char)
  | [] => ([], none)
  | c :: r =>
    if c = 'e' || c = 'E' then ([], some r)
    else
      let (a, b) := splitAtExp r
      (c :: a, b)

/-- Decimal digits to a natural number. -/
def digitsToNat (cs : List Char) : Nat :=
  cs.foldl (fun n c => n * 10 + (c.toNat - 48)) 0

/-- Parses an unsigned decimal mantissa: digits with an optional fractional
part, at least one digit overall (Python accepts `"1."` and `".5"` but not
`"."` or `""`). -/
def parseMantissa (cs : List Char) : Option Rat :=
  let ip := cs.takeWhile Char.isDigit
  let rest := cs.dropWhile Char.isDigit
  match rest with
  | [] => if ip.isEmpty then none else some ((digitsToNat ip : Nat) : Rat)
  | '.' :: rest2 =>
    let fp := rest2.takeWhile Char.isDigit
    let rest3 := rest2.dropWhile Char.isDigit
    if rest3.isEmpty then
      if ip.isEmpty && fp.isEmpty then none
      else some (((digitsToNat ip : Nat) : Rat) +
                 ((digitsToNat fp : Nat) : Rat) / ((10 : Rat) ^ fp.length))
    else none
  | _ => none

/-- Parses an exponent: optional sign then at least one digit. -/
def parseExponent (cs : List Char) : Option Int :=
  let (sgn, cs1) : Int × List Char :=
    match cs with
    | '+' :: r => (1, r)
    | '-' :: r => (-1, r)
    | r => (1, r)
  if cs1.isEmpty || !(cs1.all Char.isDigit) then none
  else some (sgn * (digitsToNat cs1 : Int))

/-- Model of Python's built-in `float(s)` on a string: strip surrounding
whitespace, then optional sign, decimal mantissa and optional decimal
exponent.  (The special literals `inf`/`nan`, hex floats and digit-group
underscores are outside this embedding; no claim exercises them.)  Returns
`none` when the conversion would raise `ValueError`. -/
def parseFloat (s : String) : Option Rat :=
  let cs0 := (pyStrip s).data
  let (sgn, cs) : Rat × List Char :=
    match cs0 with
    | '+' :: r => (1, r)
    | '-' :: r => (-1, r)
    | r => (1, r)
  let (mant, expPart) := splitAtExp cs
  match parseMantissa mant with
  | none => none
  | some m =>
    match expPart with
    | none => some (sgn * m)
    | some ecs =>
      match parseExponent ecs with
      | none => none
      | some e =>
        if 0 ≤ e then some (sgn * m * ((10 : Rat) ^ e.toNat))
        else some (sgn * m / ((10 : Rat) ^ (-e).toNat))

/-- Model of Python's `float(x)` on a scalar JSON value: numbers convert
to themselves, strings are parsed, `null` (`None`) and other values raise.
Returns `none` when the conversion raises. -/
def pyFloat : JVal → Option Rat
  | .num q => some q
  | .str s => parseFloat s
  | .null => none
  | .other => none

/-- Conversion `float(day.get(k))`: the field may also be absent, and `float(None)`
raises. -/
def pyFloatOfGet : Option JVal → Option Rat
  | none => none
  | some v => pyFloat v

/-- A per-day forecast record as consumed by the two endpoints.  Fields
are optional because the Python dicts are read with `.get`. -/
structure DayForecast where
  forecastDate : Option String
  idWeatherType : Option Int
  tMin : Option JVal
  tMax : Option JVal
  precipitaProb : Option JVal
  latitude : Option JVal
  longitude : Option JVal
  classWindSpeed : Option Int
  predWindDir : Option String
deriving DecidableEq

/-- One field step of the normalization loop in `daily_forecast` (main.py
lines 110-116): if the field is present and non-null, try `float` and on
success store the float; on failure (`except Exception: pass`) leave the
original value untouched. -/
def coerceField (v : Option JVal) : Option JVal :=
  match v with
  | none => none
  | some JVal.null => some JVal.null
  | some jv =>
    match pyFloat jv with
    | some q => some (JVal.num q)
    | none => some jv

/-- The whole normalization loop body for one day record: the five listed
fields are coerced, everything else is untouched. -/
def normalizeDay (d : DayForecast) : DayForecast :=
  { d with
    tMin := coerceField d.tMin
    tMax := coerceField d.tMax
    precipitaProb := coerceField d.precipitaProb
    latitude := coerceField d.latitude
    longitude := coerceField d.longitude }

/-- The normalization pass of `daily_forecast` over the document's `data`
array (main.py lines 110-116). -/
def normalizeForecast (days : List DayForecast) : List DayForecast :=
  days.map normalizeDay

/-! ## Single-day selection and enrichment (`forecast_for_day`, main.py) -/

/-- The enriched `weather` object `{id, pt, en}` built at main.py lines
173-177: labels default to `""` when the code is unknown to the map. -/
structure Weather where
  id : Int
  pt : String
  en : String
deriving DecidableEq

/-- The expression `weather = \x7b"id": wt, "pt": wtypes.get(wt, ...).get("pt", ""), ...\x7d` of main.py. -/
def weatherOf (wtypes : List (Int × WTLabels)) (wt : Int) : Weather :=
  { id := wt
    pt := ((wtLookup wtypes wt).map WTLabels.pt).getD ""
    en := ((wtLookup wtypes wt).map WTLabels.en).getD "" }

/-- The `wind` object `{class, dir}` (main.py lines 178-181).  (`class` is
a Lean keyword, so the field is named `windClass`.) -/
structure Wind where
  windClass : Option Int
  dir : Option String
deriving DecidableEq

/-- The normalized single-day response body (main.py lines 182-191). -/
structure DayResult where
  globalIdLocal : Int
  forecastDate : String
  tMin : Rat
  tMax : Rat
  precipitaProb : Rat
  predWindDir : Option String
  weather : Weather
  wind : Wind
deriving DecidableEq

/-- Failure outcomes of the single-day path: the explicit 404 when the
date is not in the forecast window, versus an uncaught Python exception
(e.g. a failed `int`/`float` conversion) propagating out of the handler. -/
inductive FcError where
  | dateNotInWindow
  | raisedError
deriving DecidableEq

/-- The day-selection plus enrichment core of `forecast_for_day` (main.py
lines 166-192), with the forecast document's `data` array, the target
date's ISO string, the weather-type map and the document's `globalIdLocal`
passed explicitly.  `next((d for d in data if d.get("forecastDate") ==
forecast_date.isoformat()), None)` selects the first day record whose date
equals the target exactly; no match is the 404 "Date not in available
forecast window".  The enrichment then computes `int(day.get(
"idWeatherType"))` and `float(...)` of `tMin`/`tMax`/`precipitaProb`
without any exception handler, so a failing conversion raises. -/
def forecast_for_day_core (days : List DayForecast) (target : String)
    (wtypes : List (Int × WTLabels)) (gid : Int) : Except FcError DayResult :=
  match days.find? (fun d => d.forecastDate == some target) with
  | none => .error .dateNotInWindow
  | some day =>
    match day.idWeatherType with
    | none => .error .raisedError
    | some wt =>
      match pyFloatOfGet day.tMin, pyFloatOfGet day.tMax,
            pyFloatOfGet day.precipitaProb with
      | some tmin, some tmax, some pprob =>
        .ok
          { globalIdLocal := gid
            forecastDate := target
            tMin := tmin
            tMax := tmax
            precipitaProb := pprob
            predWindDir := day.predWindDir
            weather := weatherOf wtypes wt
            wind := ⟨day.classWindSpeed, day.predWindDir⟩ }
      | _, _, _ => .error .raisedError

/-! ## Helper lemmas -/

lemma keyLt_self (p : Int × Int) : keyLt p p = false := by
  simp [keyLt]

lemma keyLt_asymm {p q : Int × Int} (h : keyLt p q = true) : keyLt q p = false := by
  simp only [keyLt, Bool.or_eq_true, Bool.or_eq_false_iff, Bool.and_eq_true,
    Bool.and_eq_false_iff, decide_eq_true_eq, decide_eq_false_iff_not, beq_iff_eq,
    beq_eq_false_iff_ne] at *
  omega

lemma keyLt_neg_trans {p q r : Int × Int} (h1 : keyLt p q = false)
    (h2 : keyLt q r = false) : keyLt p r = false := by
  simp only [keyLt, Bool.or_eq_false_iff, Bool.and_eq_false_iff,
    decide_eq_false_iff_not, beq_iff_eq, beq_eq_false_iff_ne] at *
  omega

lemma selectMin_eq_none {ls : List Locality} : selectMin ls = none ↔ ls = [] := by
  cases ls with
  | nil => simp [selectMin]
  | cons a tl =>
    simp only [selectMin]
    cases h : selectMin tl <;> simp
    split <;> simp

lemma selectMin_mem {ls : List Locality} {r : Locality}
    (h : selectMin ls = some r) : r ∈ ls := by
  induction ls with
  | nil => simp [selectMin] at h
  | cons a tl ih =>
    simp only [selectMin] at h
    split at h
    · simp only [Option.some.injEq] at h
      simp [← h]
    · next b hb =>
      split at h <;> simp only [Option.some.injEq] at h
      · subst h
        exact List.mem_cons_of_mem _ (ih hb)
      · simp [← h]

lemma selectMin_min {ls : List Locality} {r : Locality}
    (h : selectMin ls = some r) :
    ∀ l ∈ ls, keyLt (tieKey l) (tieKey r) = false := by
  induction ls generalizing r with
  | nil => simp
  | cons a tl ih =>
    simp only [selectMin] at h
    intro l hl
    split at h
    · next hnone =>
      simp only [Option.some.injEq] at h
      have htl : tl = [] := selectMin_eq_none.mp hnone
      subst htl
      simp only [List.mem_singleton] at hl
      subst hl
      rw [← h]
      exact keyLt_self _
    · next b hb =>
      split at h
      · next hba =>
        simp only [Option.some.injEq] at h
        subst h
        rcases List.mem_cons.mp hl with rfl | hltl
        · exact keyLt_asymm hba
        · exact ih hb l hltl
      · next hba =>
        simp only [Option.some.injEq] at h
        subst h
        rcases List.mem_cons.mp hl with rfl | hltl
        · exact keyLt_self _
        · exact keyLt_neg_trans (ih hb l hltl) (by simpa using hba)

/-! ## Claims about the TTL cache -/

/-- C1: for every key, `get` returns the stored value if an entry is
present with age `now - ts` at most `ttl`; otherwise it removes the entry
for that key (if present) and returns `None`, leaving all other keys
untouched; and the `set` operation never evicts: any key present before a
`set` is still present after it, so the stale-`get` path is the only
evicting operation. -/
theorem TTLCache_get_spec {α : Type} (c : TTLCache α) (now : Int) (key : String) :
    (c.store key = none → c.get now key = (none, c)) ∧
    (∀ ts v, c.store key = some (ts, v) → now - ts ≤ c.ttl →
      c.get now key = (some v, c)) ∧
    (∀ ts v, c.store key = some (ts, v) → now - ts > c.ttl →
      (c.get now key).1 = none ∧ (c.get now key).2.store key = none ∧
      ∀ k, k ≠ key → (c.get now key).2.store k = c.store k) ∧
    (∀ (t : Int) (k k' : String) (v : α),
      (c.store k').isSome → ((c.set t k v).store k').isSome) := by
  refine ⟨?_, ?_, ?_, ?_⟩
  · intro h
    simp [TTLCache.get, h]
  · intro ts v h hle
    simp only [TTLCache.get, h]
    rw [if_neg (by omega)]
  · intro ts v h hgt
    simp only [TTLCache.get, h]
    rw [if_pos (by omega)]
    refine ⟨rfl, by simp, ?_⟩
    intro k hk
    simp [hk]
  · intro t k k' v h
    simp only [TTLCache.set]
    by_cases hk : k' = k <;> simp [hk, h]

/-- Witness for C1 at a concrete cache: a fresh entry is returned, a stale
entry is evicted. -/
theorem TTLCache_get_spec_witness :
    (TTLCache.get ⟨10, fun k => if k = "a" then some (0, (5 : Nat)) else none⟩ 3 "a").1
      = some 5 ∧
    (TTLCache.get ⟨10, fun k => if k = "a" then some (0, (5 : Nat)) else none⟩ 99 "a").2.store "a"
      = none := by
  constructor
  · have h := (TTLCache_get_spec
      (⟨10, fun k => if k = "a" then some (0, (5 : Nat)) else none⟩ : TTLCache Nat)
      3 "a").2.1 0 5 (by simp) (by norm_num)
    rw [h]
  · exact ((TTLCache_get_spec
      (⟨10, fun k => if k = "a" then some (0, (5 : Nat)) else none⟩ : TTLCache Nat)
      99 "a").2.2.1 0 5 (by simp) (by norm_num)).2.1

/-- C6: with TTL `T ≥ 0`, `set(k, v)` followed immediately by `get(k)`
returns `v`; a `get(k)` more than `T` seconds after the `set` returns
`None` and physically removes the entry, so every subsequent `get(k)` (at
any time) also returns `None`; and a re-`set(k, v2)` at a fresh timestamp
is immediately retrievable. -/
theorem TTLCache_set_get_scenario {α : Type} (c : TTLCache α) (k : String)
    (v v2 : α) (t0 t1 t2 : Int) (hT : 0 ≤ c.ttl) (h1 : t1 - t0 > c.ttl) :
    (((c.set t0 k v).get t0 k).1 = some v) ∧
    ((((c.set t0 k v).get t1 k).1 = none) ∧
      (((c.set t0 k v).get t1 k).2.store k = none)) ∧
    (∀ t, ((((c.set t0 k v).get t1 k).2).get t k).1 = none) ∧
    ((((((c.set t0 k v).get t1 k).2).set t2 k v2).get t2 k).1 = some v2) := by
  have hfresh : ¬ c.ttl < 0 := by omega
  refine ⟨?_, ⟨?_, ?_⟩, ?_, ?_⟩
  · simp [TTLCache.get, TTLCache.set, hfresh]
  · simp [TTLCache.get, TTLCache.set, h1]
  · simp [TTLCache.get, TTLCache.set, h1]
  · intro t
    simp [TTLCache.get, TTLCache.set, h1]
  · simp [TTLCache.get, TTLCache.set, h1, hfresh]

/-- Witness for C6: TTL 5, set at time 0, stale read at time 6, fresh
re-set at time 10. -/
theorem TTLCache_set_get_scenario_witness :
    ((((⟨5, fun _ => none⟩ : TTLCache Nat).set 0 "k" 7).get 0 "k").1 = some 7) ∧
    ((((⟨5, fun _ => none⟩ : TTLCache Nat).set 0 "k" 7).get 6 "k").1 = none) ∧
    (((((⟨5, fun _ => none⟩ : TTLCache Nat).set 0 "k" 7).get 6 "k").2.get 8 "k").1 = none) ∧
    ((((((⟨5, fun _ => none⟩ : TTLCache Nat).set 0 "k" 7).get 6 "k").2.set 10 "k" 9).get 10 "k").1
      = some 9) := by
  have h := TTLCache_set_get_scenario (⟨5, fun _ => none⟩ : TTLCache Nat)
    "k" 7 9 0 6 10 (by norm_num) (by norm_num)
  exact ⟨h.1, h.2.1.1, h.2.2.1 8, h.2.2.2⟩

/-! ## Claims about `find_locality` -/

lemma listContains_nil (s : List Char) : listContains s [] = true := by
  cases s <;> simp [listContains, listStartsWith]

lemma containsMatch_empty (l : Locality) : containsMatch "" l = true := by
  unfold containsMatch strContains
  exact listContains_nil _

lemma filter_districtOk_none (ls : List Locality) :
    ls.filter (districtOk none) = ls :=
  List.filter_eq_self.mpr (fun _ _ => rfl)

/-- C4: Tier 1 (exact case-insensitive equality after trim/lower) beats
Tier 2 (substring): whenever the exact-match candidate set (after the
optional district filter) is non-empty, the result is drawn from it, so a
substring-only match can never be returned; and on the spec's example the
record `globalIdLocal=10` wins over "Porto Santo". -/
theorem find_locality_tier_precedence :
    (∀ (locs : List Locality) (name : String) (d : Option Int),
      tier1 locs name d ≠ [] →
      ∃ r, find_locality locs name d = some r ∧ r ∈ tier1 locs name d) ∧
    find_locality
      [⟨some "Porto", none, some 1, some 10⟩, ⟨some "Porto Santo", none, some 2, some 20⟩]
      "porto" none = some ⟨some "Porto", none, some 1, some 10⟩ := by
  constructor
  · intro locs name d hne
    cases h : selectMin (tier1 locs name d) with
    | none => exact absurd (selectMin_eq_none.mp h) hne
    | some r =>
      refine ⟨r, ?_, selectMin_mem h⟩
      simp [find_locality, h]
  · decide

/-- Witness for C4: a singleton exact match resolves. -/
theorem find_locality_tier_precedence_witness :
    (find_locality [⟨some "Porto", none, some 1, some 10⟩] "porto" none).isSome = true := by
  rcases find_locality_tier_precedence.1 [⟨some "Porto", none, some 1, some 10⟩]
    "porto" none (by decide) with ⟨r, hr, _⟩
  rw [hr]
  rfl

/-- Counterexample to C2 as stated: the sentinel for a missing
`idConcelho`/`globalIdLocal` is the finite value `1_000_000`, not an
actual maximum, so a record lacking `idConcelho` does NOT sort after every
record that has one: against a candidate whose `idConcelho` is
`2_000_000`, the record missing the field wins the tie-break and is
returned. -/
theorem find_locality_sentinel_cex :
    find_locality
      [⟨some "x", none, some 2000000, some 1⟩, ⟨some "x", none, none, some 2⟩]
      "x" none = some ⟨some "x", none, none, some 2⟩ ∧
    (⟨some "x", none, some 2000000, some 1⟩ : Locality) ∈
      tier1 [⟨some "x", none, some 2000000, some 1⟩, ⟨some "x", none, none, some 2⟩]
        "x" none := by
  exact ⟨by decide, by decide⟩

/-- C2 amended: the returned record is one of the surviving candidates of
the tier that produced it, with a lexicographically minimal
`(idConcelho, globalIdLocal)` key where a missing field defaults to the
sentinel `1_000_000` (so records lacking a field sort after those whose
field values are below the sentinel, but not after values `≥ 1_000_000`). -/
theorem find_locality_tiebreak (locs : List Locality) (name : String)
    (district_id : Option Int) (r : Locality)
    (h : find_locality locs name district_id = some r) :
    (r ∈ tier1 locs name district_id ∧
      ∀ l ∈ tier1 locs name district_id, keyLt (tieKey l) (tieKey r) = false) ∨
    (tier1 locs name district_id = [] ∧ r ∈ tier2 locs name district_id ∧
      ∀ l ∈ tier2 locs name district_id, keyLt (tieKey l) (tieKey r) = false) := by
  unfold find_locality at h
  split at h
  · next r1 h1 =>
    simp only [Option.some.injEq] at h
    subst h
    exact Or.inl ⟨selectMin_mem h1, selectMin_min h1⟩
  · next h1 =>
    exact Or.inr ⟨selectMin_eq_none.mp h1, selectMin_mem h, selectMin_min h⟩

/-- Witness for C2 (amended), on the spec's own tie-break example: two
exact matches with `idConcelho` 5 and 3, the `idConcelho=3` record wins. -/
theorem find_locality_tiebreak_witness :
    find_locality [⟨some "X", some 7, some 5, some 100⟩, ⟨some "X", some 7, some 3, some 200⟩]
      "X" none = some ⟨some "X", some 7, some 3, some 200⟩ ∧
    ((⟨some "X", some 7, some 3, some 200⟩ : Locality) ∈
      tier1 [⟨some "X", some 7, some 5, some 100⟩, ⟨some "X", some 7, some 3, some 200⟩] "X" none ∨
      tier1 [⟨some "X", some 7, some 5, some 100⟩, ⟨some "X", some 7, some 3, some 200⟩] "X" none
        = []) := by
  have hfind : find_locality
      [⟨some "X", some 7, some 5, some 100⟩, ⟨some "X", some 7, some 3, some 200⟩]
      "X" none = some ⟨some "X", some 7, some 3, some 200⟩ := by decide
  rcases find_locality_tiebreak _ _ _ _ hfind with h | h
  · exact ⟨hfind, Or.inl h.1⟩
  · exact ⟨hfind, Or.inr h.1⟩

/-- C5: with a district id supplied, both tiers only contain records whose
`idDistrito` equals it; an empty filtered Tier 1 falls through to the
filtered Tier 2; if that is also empty the resolution returns `None`. -/
theorem find_locality_district_filter (locs : List Locality) (name : String)
    (x : Int) :
    (∀ l ∈ tier1 locs name (some x), l.idDistrito.getD (-1) = x) ∧
    (∀ l ∈ tier2 locs name (some x), l.idDistrito.getD (-1) = x) ∧
    (tier1 locs name (some x) = [] →
      find_locality locs name (some x) = selectMin (tier2 locs name (some x))) ∧
    (tier1 locs name (some x) = [] → tier2 locs name (some x) = [] →
      find_locality locs name (some x) = none) := by
  have hmem : ∀ (l : Locality), districtOk (some x) l = true →
      l.idDistrito.getD (-1) = x := by
    intro l hl
    simpa [districtOk] using hl
  refine ⟨?_, ?_, ?_, ?_⟩
  · intro l hl
    exact hmem l (List.mem_filter.mp hl).2
  · intro l hl
    exact hmem l (List.mem_filter.mp hl).2
  · intro h1
    simp [find_locality, h1, selectMin]
  · intro h1 h2
    simp [find_locality, h1, h2, selectMin]

/-- Witness for C5: of two same-named localities in districts 1 and 2,
the district-2 query only sees the district-2 record, and a district with
no match at all yields `None`. -/
theorem find_locality_district_filter_witness :
    (⟨some "A", some 2, some 1, some 2⟩ : Locality).idDistrito.getD (-1) = 2 ∧
    find_locality [⟨some "A", some 1, some 1, some 1⟩, ⟨some "A", some 2, some 1, some 2⟩]
      "a" (some 9) = none := by
  constructor
  · exact (find_locality_district_filter
      [⟨some "A", some 1, some 1, some 1⟩, ⟨some "A", some 2, some 1, some 2⟩] "a" 2).1
      _ (by decide)
  · exact (find_locality_district_filter
      [⟨some "A", some 1, some 1, some 1⟩, ⟨some "A", some 2, some 1, some 2⟩] "a" 9).2.2.2
      (by decide) (by decide)

/-- C9: a name matching no record under either the exact or the substring
predicate resolves to the explicit `None` outcome (the Lean embedding is a
total function: no exception is involved). -/
theorem find_locality_not_found (locs : List Locality) (name : String)
    (district_id : Option Int)
    (h1 : ∀ l ∈ locs, exactMatch (pyLower (pyStrip name)) l = false)
    (h2 : ∀ l ∈ locs, containsMatch (pyLower (pyStrip name)) l = false) :
    find_locality locs name district_id = none := by
  have t1 : locs.filter (exactMatch (pyLower (pyStrip name))) = [] := by
    rw [List.filter_eq_nil_iff]
    intro a ha
    simp [h1 a ha]
  have t2 : locs.filter (containsMatch (pyLower (pyStrip name))) = [] := by
    rw [List.filter_eq_nil_iff]
    intro a ha
    simp [h2 a ha]
  simp [find_locality, tier1, tier2, t1, t2, selectMin]

/-- Witness for C9: `"zzzznotreal"` against a real-looking list. -/
theorem find_locality_not_found_witness :
    find_locality [⟨some "Porto", none, some 1, some 10⟩] "zzzznotreal" none = none :=
  find_locality_not_found _ _ _ (by decide) (by decide)

/-- Counterexample to C10 as stated: with a whitespace-only query, if some
record's `local` field is itself the empty string, Tier 1 (exact match on
`""`) catches it first, so Tier 2 does NOT run on all records and the
returned record need not carry the globally smallest tie-break key: here
the returned record has key `(5, 50)` while another record in the list has
the strictly smaller key `(1, 1)`. -/
theorem find_locality_empty_name_cex :
    find_locality [⟨some "", none, some 5, some 50⟩, ⟨some "aaa", none, some 1, some 1⟩]
      "  " none = some ⟨some "", none, some 5, some 50⟩ ∧
    keyLt (tieKey ⟨some "aaa", none, some 1, some 1⟩)
      (tieKey ⟨some "", none, some 5, some 50⟩) = true := by
  exact ⟨by decide, by decide⟩

/-- C10 amended: for a whitespace-only or empty name and no district
filter, a non-empty locality list always resolves (never "not found");
moreover, when no record's `local` field is empty (Tier 1 empty), Tier 2
is exactly the whole list and the returned record has a minimal
`(idConcelho, globalIdLocal)` key among all records. -/
theorem find_locality_empty_name (locs : List Locality) (name : String)
    (hname : pyLower (pyStrip name) = "") (hne : locs ≠ []) :
    (find_locality locs name none).isSome = true ∧
    (tier1 locs name none = [] →
      tier2 locs name none = locs ∧
      ∀ r, find_locality locs name none = some r →
        r ∈ locs ∧ ∀ l ∈ locs, keyLt (tieKey l) (tieKey r) = false) := by
  have ht2 : tier2 locs name none = locs := by
    unfold tier2
    rw [hname]
    have hfull : locs.filter (containsMatch "") = locs :=
      List.filter_eq_self.mpr (fun a _ => containsMatch_empty a)
    rw [hfull, filter_districtOk_none]
  constructor
  · cases h1 : selectMin (tier1 locs name none) with
    | some r => simp [find_locality, h1]
    | none =>
      have hf : find_locality locs name none = selectMin (tier2 locs name none) := by
        simp [find_locality, h1]
      rw [hf, ht2]
      cases h2 : selectMin locs with
      | some r => rfl
      | none => exact absurd (selectMin_eq_none.mp h2) hne
  · intro h1
    refine ⟨ht2, ?_⟩
    intro r hr
    have hf : find_locality locs name none = selectMin (tier2 locs name none) := by
      simp [find_locality, h1, selectMin]
    rw [hf, ht2] at hr
    exact ⟨selectMin_mem hr, selectMin_min hr⟩

/-- Witness for C10 (amended): a whitespace-only query against a singleton
list resolves. -/
theorem find_locality_empty_name_witness :
    (find_locality [⟨some "Porto", none, some 1, some 10⟩] "  " none).isSome = true :=
  (find_locality_empty_name [⟨some "Porto", none, some 1, some 10⟩] "  "
    (by decide) (by decide)).1

/-! ## Claims about `get_weather_types` -/

lemma find_map_overwrite (m : List (Int × WTLabels)) (k : Int) (v : WTLabels)
    (hany : m.any (fun p => p.1 == k) = true) :
    (m.map (fun p => if p.1 == k then (k, v) else p)).find? (fun p => p.1 == k)
      = some (k, v) := by
  induction m with
  | nil => simp at hany
  | cons a tl ih =>
    simp only [List.any_cons, Bool.or_eq_true] at hany
    by_cases hak : (a.1 == k) = true
    · simp only [List.map_cons, if_pos hak]
      rw [List.find?_cons_of_pos (p := fun x : Int × WTLabels => x.1 == k) _ (by simp)]
    · have htl : tl.any (fun p => p.1 == k) = true := by
        rcases hany with h | h
        · exact absurd h hak
        · exact h
      simp only [List.map_cons, if_neg hak]
      rw [List.find?_cons_of_neg (p := fun x : Int × WTLabels => x.1 == k) _ hak]
      exact ih htl

lemma find_map_overwrite_ne (m : List (Int × WTLabels)) (k : Int) (v : WTLabels)
    (k' : Int) (h : k' ≠ k) :
    (m.map (fun p => if p.1 == k then (k, v) else p)).find? (fun p => p.1 == k')
      = m.find? (fun p => p.1 == k') := by
  induction m with
  | nil => rfl
  | cons a tl ih =>
    simp only [List.map_cons]
    by_cases hak : (a.1 == k) = true
    · rw [if_pos hak]
      have ha : a.1 = k := by simpa using hak
      have h1 : ¬(((k, v) : Int × WTLabels).1 == k') = true := by
        simpa using Ne.symm h
      have h2 : ¬((a.1 == k') = true) := by
        simp only [ha, beq_iff_eq]
        exact Ne.symm h
      rw [List.find?_cons_of_neg (p := fun x : Int × WTLabels => x.1 == k') _ h1,
        List.find?_cons_of_neg (p := fun x : Int × WTLabels => x.1 == k') _ h2, ih]
    · rw [if_neg hak]
      by_cases hak' : (a.1 == k') = true
      · rw [List.find?_cons_of_pos (p := fun x : Int × WTLabels => x.1 == k') _ hak',
          List.find?_cons_of_pos (p := fun x : Int × WTLabels => x.1 == k') _ hak']
      · rw [List.find?_cons_of_neg (p := fun x : Int × WTLabels => x.1 == k') _ hak',
          List.find?_cons_of_neg (p := fun x : Int × WTLabels => x.1 == k') _ hak', ih]

lemma wtLookup_dictInsert_self (m : List (Int × WTLabels)) (k : Int) (v : WTLabels) :
    wtLookup (dictInsert m k v) k = some v := by
  unfold dictInsert wtLookup
  split
  · next hany =>
    rw [find_map_overwrite m k v hany]
    rfl
  · next hany =>
    have hnone : m.find? (fun p => p.1 == k) = none := by
      rw [List.find?_eq_none]
      intro x hx hpx
      exact hany (List.any_eq_true.mpr ⟨x, hx, hpx⟩)
    rw [List.find?_append, hnone]
    simp

lemma wtLookup_dictInsert_ne (m : List (Int × WTLabels)) (k : Int) (v : WTLabels)
    (k' : Int) (h : k' ≠ k) : wtLookup (dictInsert m k v) k' = wtLookup m k' := by
  unfold dictInsert wtLookup
  split
  · rw [find_map_overwrite_ne m k v k' h]
  · have h1 : ([((k, v) : Int × WTLabels)].find? (fun p => p.1 == k')) = none := by
      simp [Ne.symm h]
    rw [List.find?_append, h1, Option.or_none]

lemma build_aux_present (items : List RawWT) (acc : List (Int × WTLabels)) (k : Int)
    (h : (wtLookup acc k).isSome = true ∨ ∃ it ∈ items, it.idWeatherType = k) :
    (wtLookup (items.foldl wtStep acc) k).isSome = true := by
  induction items generalizing acc with
  | nil =>
    rcases h with h | ⟨it, hit, _⟩
    · simpa using h
    · simp at hit
  | cons a tl ih =>
    simp only [List.foldl_cons]
    apply ih
    by_cases hk : a.idWeatherType = k
    · left
      subst hk
      simp [wtStep, wtLookup_dictInsert_self]
    · rcases h with h | ⟨it, hit, hitk⟩
      · left
        rw [wtStep, wtLookup_dictInsert_ne _ _ _ _ (fun hh => hk hh.symm)]
        exact h
      · rcases List.mem_cons.mp hit with rfl | htl
        · exact absurd hitk hk
        · exact Or.inr ⟨it, htl, hitk⟩

lemma build_aux_source (items : List RawWT) (acc : List (Int × WTLabels)) (k : Int)
    (h : (wtLookup (items.foldl wtStep acc) k).isSome = true) :
    (wtLookup acc k).isSome = true ∨ ∃ it ∈ items, it.idWeatherType = k := by
  induction items generalizing acc with
  | nil => exact Or.inl (by simpa using h)
  | cons a tl ih =>
    simp only [List.foldl_cons] at h
    rcases ih _ h with h' | ⟨it, hit, hitk⟩
    · by_cases hk : a.idWeatherType = k
      · exact Or.inr ⟨a, List.mem_cons_self _ _, hk⟩
      · left
        rw [wtStep, wtLookup_dictInsert_ne _ _ _ _ (fun hh => hk hh.symm)] at h'
        exact h'
    · exact Or.inr ⟨it, List.mem_cons_of_mem _ hit, hitk⟩

/-- C7: on a cache miss `get_weather_types` returns the integer-keyed
label map built from the raw array and stores exactly that map (not the
raw array) under the key `"weather_types"`; on a hit it returns the cached
value unchanged, so a hit on a previously-stored map returns the same
shape; and the built map's keys are precisely the `idWeatherType`s of the
raw items. -/
theorem get_weather_types_spec (cache : TTLCache WTVal) (now : Int)
    (fetched : List RawWT) :
    ((cache.get now "weather_types").1 = none →
      (get_weather_types cache now fetched).1
        = WTVal.mapped (buildWeatherTypes fetched) ∧
      (get_weather_types cache now fetched).2.store "weather_types"
        = some (now, WTVal.mapped (buildWeatherTypes fetched))) ∧
    (∀ v, (cache.get now "weather_types").1 = some v →
      (get_weather_types cache now fetched).1 = v) ∧
    (∀ it ∈ fetched,
      (wtLookup (buildWeatherTypes fetched) it.idWeatherType).isSome = true) ∧
    (∀ k, (wtLookup (buildWeatherTypes fetched) k).isSome = true →
      ∃ it ∈ fetched, it.idWeatherType = k) := by
  refine ⟨?_, ?_, ?_, ?_⟩
  · intro h
    rcases hg : cache.get now "weather_types" with ⟨o, c2⟩
    rw [hg] at h
    simp only at h
    subst h
    exact ⟨by simp [get_weather_types, hg],
      by simp [get_weather_types, hg, TTLCache.set]⟩
  · intro v hv
    rcases hg : cache.get now "weather_types" with ⟨o, c2⟩
    rw [hg] at hv
    simp only at hv
    subst hv
    simp [get_weather_types, hg]
  · intro it hit
    exact build_aux_present fetched [] it.idWeatherType (Or.inr ⟨it, hit, rfl⟩)
  · intro k hk
    rcases build_aux_source fetched [] k hk with h | h
    · simp [wtLookup] at h
    · exact h

/-- Witness for C7: a one-element raw array produces and caches the
one-entry map. -/
theorem get_weather_types_spec_witness :
    (get_weather_types ⟨100, fun _ => none⟩ 5 [⟨1, some "pt1", some "en1"⟩]).1
      = WTVal.mapped [(1, ⟨"pt1", "en1"⟩)] ∧
    (get_weather_types ⟨100, fun _ => none⟩ 5 [⟨1, some "pt1", some "en1"⟩]).2.store
      "weather_types" = some (5, WTVal.mapped [(1, ⟨"pt1", "en1"⟩)]) := by
  have h := (get_weather_types_spec ⟨100, fun _ => none⟩ 5
    [⟨1, some "pt1", some "en1"⟩]).1 rfl
  exact ⟨h.1, h.2⟩

/-! ## Claims about the single-day path and numeric coercion (`app/main.py`) -/

/-- C8: the single-day path selects exactly (the first) day record whose
`forecastDate` equals the target date string (pure equality, never range
matching); if no record matches, the outcome is the explicit
"date outside available window" failure; and the weather enrichment looks
the day's code up in the label map with `pt`/`en` defaulting to `""` when
the code is unknown. -/
theorem forecast_for_day_spec (days : List DayForecast) (target : String)
    (wtypes : List (Int × WTLabels)) (gid : Int) :
    (∀ day, days.find? (fun d => d.forecastDate == some target) = some day →
      day ∈ days ∧ day.forecastDate = some target) ∧
    ((∀ d ∈ days, d.forecastDate ≠ some target) →
      forecast_for_day_core days target wtypes gid = .error .dateNotInWindow) ∧
    (∀ r, forecast_for_day_core days target wtypes gid = .ok r →
      ∃ day, days.find? (fun d => d.forecastDate == some target) = some day ∧
        day.idWeatherType = some r.weather.id ∧
        r.weather = weatherOf wtypes r.weather.id) ∧
    (∀ wt, wtLookup wtypes wt = none → weatherOf wtypes wt = ⟨wt, "", ""⟩) ∧
    (∀ wt labels, wtLookup wtypes wt = some labels →
      weatherOf wtypes wt = ⟨wt, labels.pt, labels.en⟩) := by
  refine ⟨?_, ?_, ?_, ?_, ?_⟩
  · intro day hday
    refine ⟨List.mem_of_find?_eq_some hday, ?_⟩
    have hp := List.find?_some hday
    simpa using hp
  · intro hnone
    have hfn : days.find? (fun d => d.forecastDate == some target) = none := by
      rw [List.find?_eq_none]
      intro d hd
      simpa using hnone d hd
    simp [forecast_for_day_core, hfn]
  · intro r hr
    unfold forecast_for_day_core at hr
    split at hr
    · exact absurd hr (by simp)
    · next day hday =>
      refine ⟨day, hday, ?_⟩
      split at hr
      · exact absurd hr (by simp)
      · next wt hwt =>
        split at hr
        · next h1 h2 h3 =>
          simp only [Except.ok.injEq] at hr
          subst hr
          exact ⟨hwt, rfl⟩
        · exact absurd hr (by simp)
  · intro wt h
    simp [weatherOf, h]
  · intro wt labels h
    simp [weatherOf, h]

/-- Witness for C8: a missing date yields the explicit window failure, a
known code gets its labels, an unknown code gets empty labels. -/
theorem forecast_for_day_spec_witness :
    forecast_for_day_core
      [⟨some "2026-01-02", some 1, some (JVal.num 10), some (JVal.num 20),
        some (JVal.num 0), none, none, none, none⟩]
      "2026-01-03" [] 7 = .error .dateNotInWindow ∧
    weatherOf [(1, ⟨"ceu limpo", "clear sky"⟩)] 1 = ⟨1, "ceu limpo", "clear sky"⟩ ∧
    weatherOf [(1, ⟨"ceu limpo", "clear sky"⟩)] 3 = ⟨3, "", ""⟩ := by
  refine ⟨?_, ?_, ?_⟩
  · exact (forecast_for_day_spec
      [⟨some "2026-01-02", some 1, some (JVal.num 10), some (JVal.num 20),
        some (JVal.num 0), none, none, none, none⟩]
      "2026-01-03" [] 7).2.1 (by decide)
  · exact (forecast_for_day_spec [] "x" [(1, ⟨"ceu limpo", "clear sky"⟩)] 0).2.2.2.2
      1 ⟨"ceu limpo", "clear sky"⟩ (by decide)
  · exact (forecast_for_day_spec [] "x" [(1, ⟨"ceu limpo", "clear sky"⟩)] 0).2.2.2.1
      3 (by decide)

/-- Counterexample to C3 as stated: the claim's "no error is raised"
covers both cited code paths, but the single-day handler
(`forecast_for_day`, main.py lines 182-192) calls `float(day.get("tMin"))`
with no exception handler, so for a selected day with `tMin = "n/a"` the
conversion failure IS propagated (an uncaught `ValueError`), while the
multi-day normalization of the very same value is silent. -/
theorem coercion_raises_cex :
    forecast_for_day_core
      [⟨some "2026-01-02", some 1, some (JVal.str "n/a"), some (JVal.num 20),
        some (JVal.num 0), none, none, none, none⟩]
      "2026-01-02" [] 1 = .error .raisedError ∧
    coerceField (some (JVal.str "n/a")) = some (JVal.str "n/a") := by
  exact ⟨rfl, by decide⟩

/-- C3 amended: in the multi-day normalization (`daily_forecast`) the five
fields `tMin`, `tMax`, `precipitaProb`, `latitude`, `longitude` are
coerced to float when present and non-null, coercion failure leaves the
original value untouched and never raises, and no other field is changed;
in the single-day endpoint (`forecast_for_day`), however,
`tMin`/`tMax`/`precipitaProb` are converted with a bare `float()`, so a
failure there raises and propagates to the caller. -/
theorem numeric_coercion_spec :
    (coerceField none = none) ∧
    (coerceField (some JVal.null) = some JVal.null) ∧
    (coerceField (some JVal.other) = some JVal.other) ∧
    (∀ q, coerceField (some (JVal.num q)) = some (JVal.num q)) ∧
    (∀ s q, parseFloat s = some q →
      coerceField (some (JVal.str s)) = some (JVal.num q)) ∧
    (∀ s, parseFloat s = none →
      coerceField (some (JVal.str s)) = some (JVal.str s)) ∧
    (∀ d, (normalizeDay d).tMin = coerceField d.tMin ∧
      (normalizeDay d).tMax = coerceField d.tMax ∧
      (normalizeDay d).precipitaProb = coerceField d.precipitaProb ∧
      (normalizeDay d).latitude = coerceField d.latitude ∧
      (normalizeDay d).longitude = coerceField d.longitude ∧
      (normalizeDay d).forecastDate = d.forecastDate ∧
      (normalizeDay d).idWeatherType = d.idWeatherType ∧
      (normalizeDay d).classWindSpeed = d.classWindSpeed ∧
      (normalizeDay d).predWindDir = d.predWindDir) ∧
    (∀ days target wtypes gid day,
      days.find? (fun d => d.forecastDate == some target) = some day →
      day.idWeatherType ≠ none →
      pyFloatOfGet day.tMin = none →
      forecast_for_day_core days target wtypes gid = .error .raisedError) := by
  refine ⟨rfl, rfl, rfl, fun q => rfl, ?_, ?_, ?_, ?_⟩
  · intro s q h
    simp [coerceField, pyFloat, h]
  · intro s h
    simp [coerceField, pyFloat, h]
  · intro d
    exact ⟨rfl, rfl, rfl, rfl, rfl, rfl, rfl, rfl, rfl⟩
  · intro days target wtypes gid day hfind hwt htmin
    obtain ⟨wt, hw⟩ := Option.ne_none_iff_exists'.mp hwt
    simp [forecast_for_day_core, hfind, hw, htmin]

/-- Witness for C3 (amended): `"12.5"` coerces to the rational `25/2`,
`"n/a"` is left untouched without an error, and a selected day carrying
`tMin = "n/a"` makes the single-day handler raise. -/
theorem numeric_coercion_spec_witness :
    coerceField (some (JVal.str "12.5")) = some (JVal.num (25 / 2)) ∧
    coerceField (some (JVal.str "n/a")) = some (JVal.str "n/a") ∧
    forecast_for_day_core
      [⟨some "2026-02-03", some 2, some (JVal.str "n/a"), some (JVal.num 21),
        some (JVal.num 5), none, none, none, none⟩]
      "2026-02-03" [] 2 = .error .raisedError := by
  refine ⟨?_, ?_, ?_⟩
  · refine numeric_coercion_spec.2.2.2.2.1 "12.5" (25 / 2) ?_
    rw [show parseFloat "12.5"
        = some ((1 : Rat) * (((12 : Nat) : Rat) + ((5 : Nat) : Rat) / (10 : Rat) ^ (1 : Nat)))
      from rfl]
    norm_num
  · exact numeric_coercion_spec.2.2.2.2.2.1 "n/a" (by decide)
  · exact numeric_coercion_spec.2.2.2.2.2.2.2
      [⟨some "2026-02-03", some 2, some (JVal.str "n/a"), some (JVal.num 21),
        some (JVal.num 5), none, none, none, none⟩]
      "2026-02-03" [] 2
      ⟨some "2026-02-03", some 2, some (JVal.str "n/a"), some (JVal.num 21),
        some (JVal.num 5), none, none, none, none⟩
      (by decide) (by decide) (by decide)

end IPMAProxy
